import Mathlib

/-!
Shallow embedding of the agar.io team simulation (src/agario.py and
src/agariov2.py).  Numeric model: Python floats are modelled as exact
rationals (`Rat`); agent masses start as the integer `START_MASS` and only
ever grow by integer amounts (`FOOD_MASS` or another agent's mass), so they
are modelled as `Nat`.  `int(math.sqrt(m) * 4)` is `Nat.sqrt (16 * m)`,
i.e. `⌊4·√m⌋`.  A comparison involving a Euclidean distance `sqrt(d2)` is
embedded through its squared equivalent (`sqrtLt`), which is exact over the
reals.  Python object identity (used by `in`, `==` and `list.remove` on
players and pellets) is modelled by a numeric `id` field; the source only
ever stores distinct objects in its lists, which corresponds to the ids
being `Nodup`.
-/

namespace Agario

/-- Game-area width (`SCREEN_WIDTH = 1000`). -/
def SCREEN_WIDTH : Rat := 1000

/-- Game-area height (`SCREEN_HEIGHT = 800`). -/
def SCREEN_HEIGHT : Rat := 800

/-- Number of teams (`NUM_TEAMS = 8`). -/
def NUM_TEAMS : Nat := 8

/-- Starting mass of every player (`START_MASS = 20`). -/
def START_MASS : Nat := 20

/-- Mass-ratio threshold for eating (`EAT_THRESHOLD = 1.1`). -/
def EAT_THRESHOLD : Rat := 1.1

/-- Mass gained per food pellet (`FOOD_MASS = 2`). -/
def FOOD_MASS : Nat := 2

/-- Base speed factor (`SPEED_MULTIPLIER = 5.0`). -/
def SPEED_MULTIPLIER : Rat := 5

/-- Food population cap (`MAX_FOOD = 1000`). -/
def MAX_FOOD : Nat := 1000

/-- State of one `Player` object; `id` models Python object identity. -/
structure Player where
  id : Nat
  x : Rat
  y : Rat
  team_id : Nat
  mass : Nat
  radius : Nat
  speed : Rat
  move_timer : Rat
  dx : Rat
  dy : Rat
deriving DecidableEq, Repr

/-- State of one `Food` object; `id` models Python object identity. -/
structure Food where
  id : Nat
  x : Rat
  y : Rat
  radius : Nat
deriving DecidableEq, Repr

/-- `Food.__init__`: fixed radius 3 (color is cosmetic and not modelled). -/
def mkFood (i : Nat) (x y : Rat) : Food :=
  { id := i, x := x, y := y, radius := 3 }

/-- `int(math.sqrt(mass) * 4)`, exactly `⌊4·√mass⌋`. -/
def radiusOf (mass : Nat) : Nat := Nat.sqrt (16 * mass)

/-- `SPEED_MULTIPLIER * max(0.5, 8 - radius * 0.1)`. -/
def speedOf (radius : Nat) : Rat := SPEED_MULTIPLIER * max 0.5 (8 - (radius : Rat) * 0.1)

/-- `Player.update_properties`: recompute radius and speed from mass. -/
def update_properties (p : Player) : Player :=
  { p with radius := radiusOf p.mass, speed := speedOf (radiusOf p.mass) }

/-- `Player.__init__`: set mass, then `update_properties`; timer and heading 0. -/
def mkPlayer (i : Nat) (x y : Rat) (team : Nat) (start_mass : Nat) : Player :=
  update_properties
    { id := i, x := x, y := y, team_id := team, mass := start_mass,
      radius := 0, speed := 0, move_timer := 0, dx := 0, dy := 0 }

/-- Squared Euclidean distance; `get_distance` is its square root. -/
def dist2 (x1 y1 x2 y2 : Rat) : Rat := (x2 - x1) ^ 2 + (y2 - y1) ^ 2

/-- Exact embedding of `Real.sqrt d2 < r` for `d2 ≥ 0`: the bound must be
positive and dominate in squares. -/
def sqrtLt (d2 r : Rat) : Prop := 0 < r ∧ d2 < r ^ 2

instance (d2 r : Rat) : Decidable (sqrtLt d2 r) :=
  inferInstanceAs (Decidable (_ ∧ _))

/-- The invariant re-established by `update_properties`: radius and speed are
the ones derived from the current mass. -/
def propsOK (p : Player) : Prop :=
  p.radius = radiusOf p.mass ∧ p.speed = speedOf (radiusOf p.mass)

instance (p : Player) : Decidable (propsOK p) :=
  inferInstanceAs (Decidable (_ ∧ _))

/-- Random draws consumed by one call to `Player.move`: the `randint(30, 90)`
timer reset and the `(cos θ, sin θ)` of the `uniform(0, 2π)` heading. -/
structure MoveRnd where
  newTimer : Rat
  dx : Rat
  dy : Rat
deriving Repr

/-- `Player.move(game_speed)` from src/agario.py: decrement the wander timer
by `1 * game_speed`, redraw timer and heading when it hits zero, displace by
`heading * speed * game_speed`, then clamp to the arena rectangle. -/
def move (p : Player) (game_speed : Rat) (rnd : MoveRnd) : Player :=
  let t := p.move_timer - 1 * game_speed
  let s : Rat × Rat × Rat :=
    if t ≤ 0 then (rnd.newTimer, rnd.dx, rnd.dy) else (t, p.dx, p.dy)
  let nx := p.x + s.2.1 * p.speed * game_speed
  let ny := p.y + s.2.2 * p.speed * game_speed
  { p with move_timer := s.1, dx := s.2.1, dy := s.2.2,
           x := max 0 (min nx SCREEN_WIDTH),
           y := max 0 (min ny SCREEN_HEIGHT) }

/-- First player in the list with the given identity, if any; models both
`obj in players` (`isSome`) and attribute access on the live object. -/
def lookup : List Player → Nat → Option Player
  | [], _ => none
  | p :: r, i => if p.id = i then some p else lookup r i

/-- `players.remove(obj)`: drop the first element with the given identity. -/
def removeFirst : List Player → Nat → List Player
  | [], _ => []
  | p :: r, i => if p.id = i then r else p :: removeFirst r i

/-- In-place mutation of the object with the given identity (first
occurrence), as Python attribute assignment on a list element. -/
def updateFirst : List Player → Nat → (Player → Player) → List Player
  | [], _, _ => []
  | p :: r, i, f => if p.id = i then f p :: r else p :: updateFirst r i f

/-- `big.mass > small.mass * EAT_THRESHOLD`. -/
def eatCond (big small : Player) : Prop :=
  (big.mass : Rat) > (small.mass : Rat) * EAT_THRESHOLD

instance (a b : Player) : Decidable (eatCond a b) :=
  inferInstanceAs (Decidable (_ < _))

/-- `dist + small.radius < big.radius`, i.e. the smaller circle is fully
contained in the bigger one (embedded via `sqrtLt`). -/
def containCond (big small : Player) : Prop :=
  sqrtLt (dist2 big.x big.y small.x small.y) ((big.radius : Rat) - (small.radius : Rat))

instance (a b : Player) : Decidable (containCond a b) :=
  inferInstanceAs (Decidable (sqrtLt _ _))

/-- `winner.mass += victim.mass` followed by `winner.update_properties()`. -/
def absorb (winner victim : Player) : Player :=
  update_properties { winner with mass := winner.mass + victim.mass }

/-- Body of the player-collision double loop of src/agario.py for the pair
`(i, j)`: skip unless both are still live and distinct, then apply the
threshold + containment rule in both directions (`if` / `elif`). -/
def pairStep (ps : List Player) (i j : Nat) : List Player :=
  match lookup ps i, lookup ps j with
  | some a, some b =>
    if i = j then ps
    else if eatCond a b then
      if containCond a b then updateFirst (removeFirst ps j) i (fun p => absorb p b) else ps
    else if eatCond b a then
      if containCond b a then updateFirst (removeFirst ps i) j (fun p => absorb p a) else ps
    else ps
  | _, _ => ps

/-- Body of the player-collision double loop of src/agariov2.py: identical
to `pairStep` except that a same-team pair is skipped. -/
def pairStepV2 (ps : List Player) (i j : Nat) : List Player :=
  match lookup ps i, lookup ps j with
  | some a, some b =>
    if i = j ∨ a.team_id = b.team_id then ps
    else if eatCond a b then
      if containCond a b then updateFirst (removeFirst ps j) i (fun p => absorb p b) else ps
    else if eatCond b a then
      if containCond b a then updateFirst (removeFirst ps i) j (fun p => absorb p a) else ps
    else ps
  | _, _ => ps

/-- `for player_b in players.copy(): ...` for a fixed `player_a`. -/
def innerLoop (step : List Player → Nat → Nat → List Player) (i : Nat) :
    List Nat → List Player → List Player
  | [], ps => ps
  | j :: rest, ps => innerLoop step i rest (step ps i j)

/-- `for player_a in players.copy(): for player_b in players.copy(): ...` —
the inner snapshot is re-taken from the live list at each outer step. -/
def outerLoop (step : List Player → Nat → Nat → List Player) :
    List Nat → List Player → List Player
  | [], ps => ps
  | i :: rest, ps => outerLoop step rest (innerLoop step i (ps.map fun p => p.id) ps)

/-- The whole agent-consumption pass of src/agario.py. -/
def agentPass (ps : List Player) : List Player :=
  outerLoop pairStep (ps.map fun p => p.id) ps

/-- The whole agent-consumption pass of src/agariov2.py. -/
def agentPassV2 (ps : List Player) : List Player :=
  outerLoop pairStepV2 (ps.map fun p => p.id) ps

/-- `food_pellets.remove(pellet)`: drop the first pellet with this identity. -/
def removeFoodFirst : List Food → Nat → List Food
  | [], _ => []
  | f :: r, i => if f.id = i then r else f :: removeFoodFirst r i

/-- `for pellet in food_pellets.copy(): ...` for one fixed player: the first
argument is the snapshot, the second the live pellet list.  On overlap
(`dist < player.radius + pellet.radius`) the player gains `FOOD_MASS`,
recomputes properties, and the pellet is removed from the live list. -/
def foodInner (p : Player) : List Food → List Food → Player × List Food
  | [], live => (p, live)
  | f :: rest, live =>
    if sqrtLt (dist2 p.x p.y f.x f.y) (((p.radius + f.radius : Nat) : Rat)) then
      foodInner (update_properties { p with mass := p.mass + FOOD_MASS }) rest
        (removeFoodFirst live f.id)
    else foodInner p rest live

/-- `for player in players: for pellet in food_pellets.copy(): ...` — each
player takes a fresh snapshot of the current live pellets. -/
def foodPass : List Player → List Food → List Player × List Food
  | [], food => ([], food)
  | p :: rest, food =>
    let r1 := foodInner p food food
    let r2 := foodPass rest r1.2
    (r1.1 :: r2.1, r2.2)

/-- `team_data[t]['mass']`: sum of the masses of live agents on team `t`. -/
def teamMass (ps : List Player) (t : Nat) : Nat :=
  ((ps.filter fun p => p.team_id = t).map fun p => p.mass).sum

/-- `team_data[t]['player_count']`: number of live agents on team `t`. -/
def teamCount (ps : List Player) (t : Nat) : Nat :=
  (ps.filter fun p => p.team_id = t).length

/-- `max(1, *[data['mass'] for data in team_data.values()])` (src/agario.py). -/
def max_mass (ps : List Player) : Nat :=
  (List.range NUM_TEAMS).foldl (fun m t => max m (teamMass ps t)) 1

/-- `max_mass = 1; for data in team_data.values(): if data['mass'] > max_mass:
max_mass = data['mass']` (src/agariov2.py). -/
def max_massV2 (ps : List Player) : Nat :=
  (List.range NUM_TEAMS).foldl (fun m t => if teamMass ps t > m then teamMass ps t else m) 1

/-- The `active_team_count` / `last_active_team_id` loop over
`team_data.items()` (iterated in insertion order `0, …, NUM_TEAMS-1`). -/
def activeFold (ps : List Player) : Nat × Int :=
  (List.range NUM_TEAMS).foldl
    (fun acc t => if 0 < teamCount ps t then (acc.1 + 1, (t : Int)) else acc) (0, -1)

/-- The winner record: `winner_id = none` is the `'No one'` sentinel. -/
structure Winner where
  winner_id : Option Nat
  mass : Nat
deriving DecidableEq, Repr

/-- The win-condition check of src/agario.py: `some w` means the state is set
to victory with record `w`; `none` means the state stays as it was. -/
def winCheck (ps : List Player) : Option Winner :=
  let a := activeFold ps
  if a.1 = 1 then some { winner_id := some a.2.toNat, mass := teamMass ps a.2.toNat }
  else if a.1 = 0 then some { winner_id := none, mass := 0 }
  else none

/-- The game-state variable of src/agario.py. -/
inductive GState where
  | playing
  | paused
  | victory (w : Winner)
deriving DecidableEq, Repr

/-- Random draws and timing consumed by one iteration of the main loop:
`dt_ms` (wall-clock delta), the food-spawn roll `random.random() <
FOOD_SPAWN_RATE * game_speed`, the spawned pellet, and each player's
`Player.move` draws (indexed by player identity). -/
structure Oracle where
  dt_ms : Rat
  spawnRoll : Bool
  spawnFood : Food
  mv : Nat → MoveRnd

/-- The mutable loop state of `main()` in src/agario.py (simulation part;
rendering and the input box are external). -/
structure Sim where
  players : List Player
  food_pellets : List Food
  game_state : GState
  total_play_time : Rat
  game_speed : Rat

/-- One iteration of the game-state logic of `main()` in src/agario.py: the
whole block runs only when the state is `"playing"`; it accrues scaled play
time, may spawn food, moves every player, runs the food pass then the agent
pass, and evaluates the win condition on the aggregated result. -/
def simTick (s : Sim) (o : Oracle) : Sim :=
  match s.game_state with
  | GState.playing =>
    let time := s.total_play_time + o.dt_ms * s.game_speed
    let food0 := if o.spawnRoll ∧ s.food_pellets.length < MAX_FOOD
                 then s.food_pellets ++ [o.spawnFood] else s.food_pellets
    let ps1 := s.players.map fun p => move p s.game_speed (o.mv p.id)
    let r := foodPass ps1 food0
    let ps3 := agentPass r.1
    let st := match winCheck ps3 with
      | some w => GState.victory w
      | none => GState.playing
    { players := ps3, food_pellets := r.2, game_state := st,
      total_play_time := time, game_speed := s.game_speed }
  | _ => s

/-- Value of a digit string, most significant first. -/
def digitsVal (l : List Char) : Nat :=
  l.foldl (fun n c => n * 10 + (c.toNat - 48)) 0

/-- Model of Python's built-in `float(input_str)` restricted to plain decimal
literals: optional sign, then digits with at most one decimal point and at
least one digit.  Exponent forms, `inf`/`nan`, surrounding whitespace and
underscore separators — all accepted by the real builtin — are outside the
model, as are doubles whose value differs from the exact decimal.  The result
is the signed mantissa `m` and the number of fractional digits `k`; the
parsed value is `m / 10^k`. -/
def parseDec (s : String) : Option (Int × Nat) :=
  let body : Int × List Char :=
    match s.data with
    | '-' :: r => (-1, r)
    | '+' :: r => (1, r)
    | cs => (1, cs)
  let ip := body.2.takeWhile fun c => c ≠ '.'
  match body.2.dropWhile fun c => c ≠ '.' with
  | [] =>
    if ip ≠ [] ∧ ip.all Char.isDigit then some (body.1 * digitsVal ip, 0) else none
  | _ :: fr =>
    if (ip ≠ [] ∨ fr ≠ []) ∧ (ip ++ fr).all Char.isDigit then
      some (body.1 * (digitsVal ip * 10 ^ fr.length + digitsVal fr), fr.length)
    else none

/-- The parsed numeric value `m / 10^k` as an exact rational. -/
def decValue (m : Int) (k : Nat) : Rat := (m : Rat) / 10 ^ k

/-- Left-pad with `'0'` to `k` characters. -/
def padLeft (s : String) (k : Nat) : String :=
  String.mk (List.replicate (k - s.length) '0') ++ s

/-- Drop trailing `'0'` characters. -/
def stripZeros (s : String) : String :=
  String.mk ((s.data.reverse.dropWhile fun c => c = '0').reverse)

/-- `f"{speed}"` for a non-negative non-integral exact decimal `m / 10^k`:
Python's shortest round-tripping repr is, for such values, the integer part
followed by the fractional digits with trailing zeros stripped. -/
def fmtDec (m : Int) (k : Nat) : String :=
  toString (m.toNat / 10 ^ k) ++ "." ++ stripZeros (padLeft (toString (m.toNat % 10 ^ k)) k)

/-- `parse_speed_input` from src/agario.py.  The `try/except ValueError` is
the `none` branch of `parseDec`; on the parsed value `m / 10^k`, `speed < 0`
is exactly `m < 0`, `speed.is_integer()` is exactly `10^k ∣ m`, and
`f"{int(speed)}"` is exactly the decimal rendering of `m / 10^k` as an
integer. -/
def parse_speed_input (s : String) : Rat × String :=
  if s.isEmpty then (1, "1")
  else
    match parseDec s with
    | none => (1, "1")
    | some mk =>
      if mk.1 < 0 then (1, "1")
      else if (10 ^ mk.2 : Int) ∣ mk.1 then (decValue mk.1 mk.2, toString (mk.1 / 10 ^ mk.2))
      else (decValue mk.1 mk.2, fmtDec mk.1 mk.2)

/-- Total mass of the live agents. -/
def massSum (ps : List Player) : Nat := (ps.map fun p => p.mass).sum

/-- Teams (in id order) that still have at least one live agent. -/
def activeTeams (ps : List Player) : List Nat :=
  (List.range NUM_TEAMS).filter fun t => decide (0 < teamCount ps t)

/-- Concrete agent (id 0, team 0, mass 100) with consistent derived fields:
`radiusOf 100 = 40` and `speedOf 40 = 20`. -/
def pDemoA : Player :=
  { id := 0, x := 100, y := 100, team_id := 0, mass := 100,
    radius := 40, speed := 20, move_timer := 1, dx := 0, dy := 0 }

/-- Concrete agent (id 1, team 0, mass 10) with consistent derived fields
(`radiusOf 10 = 12`, `speedOf 12 = 34`), centered 10 units from `pDemoA`, so
`pDemoA` outweighs it (100 > 10·1.1) and contains it (10 + 12 < 40). -/
def pDemoB : Player :=
  { id := 1, x := 110, y := 100, team_id := 0, mass := 10,
    radius := 12, speed := 34, move_timer := 1, dx := 0, dy := 0 }

/-- A one-agent simulation state in `"playing"` state. -/
def simDemo : Sim :=
  { players := [mkPlayer 0 100 100 0 20], food_pellets := [],
    game_state := GState.playing, total_play_time := 0, game_speed := 1 }

/-- A fixed choice of random draws for one loop iteration. -/
def oracleDemo : Oracle :=
  { dt_ms := 16, spawnRoll := false, spawnFood := mkFood 0 0 0,
    mv := fun _ => { newTimer := 30, dx := 1, dy := 0 } }

/-! ### Entity-store lemmas -/

lemma lookup_eq_none (ps : List Player) (i : Nat) (h : i ∉ ps.map fun p => p.id) :
    lookup ps i = none := by
  induction ps with
  | nil => rfl
  | cons p r ih =>
    simp only [List.map_cons, List.mem_cons] at h
    push_neg at h
    have hp : ¬ p.id = i := fun hc => h.1 hc.symm
    simp only [lookup, if_neg hp]
    exact ih h.2

lemma lookup_removeFirst_ne (ps : List Player) {i j : Nat} (h : i ≠ j) :
    lookup (removeFirst ps j) i = lookup ps i := by
  induction ps with
  | nil => rfl
  | cons p r ih =>
    by_cases hp : p.id = j
    · have hpi : ¬ p.id = i := fun hc => h (hc ▸ hp ▸ rfl)
      simp only [removeFirst, if_pos hp, lookup, if_neg hpi]
    · simp only [removeFirst, if_neg hp, lookup]
      by_cases hpi : p.id = i
      · simp only [if_pos hpi]
      · simp only [if_neg hpi, ih]

lemma lookup_removeFirst_self (ps : List Player) (j : Nat)
    (hnd : (ps.map fun p => p.id).Nodup) :
    lookup (removeFirst ps j) j = none := by
  induction ps with
  | nil => rfl
  | cons p r ih =>
    simp only [List.map_cons, List.nodup_cons] at hnd
    by_cases hp : p.id = j
    · simp only [removeFirst, if_pos hp]
      exact lookup_eq_none r j (hp ▸ hnd.1)
    · simp only [removeFirst, if_neg hp, lookup, if_neg hp]
      exact ih hnd.2

lemma lookup_updateFirst_self (ps : List Player) (i : Nat) (f : Player → Player)
    (hf : ∀ p, (f p).id = p.id) :
    lookup (updateFirst ps i f) i = (lookup ps i).map f := by
  induction ps with
  | nil => rfl
  | cons p r ih =>
    by_cases hp : p.id = i
    · simp only [updateFirst, if_pos hp, lookup, hf p, if_pos hp, Option.map_some']
    · simp only [updateFirst, if_neg hp, lookup, if_neg hp, ih]

lemma lookup_updateFirst_ne (ps : List Player) {i k : Nat} (f : Player → Player)
    (hf : ∀ p, (f p).id = p.id) (hk : k ≠ i) :
    lookup (updateFirst ps i f) k = lookup ps k := by
  induction ps with
  | nil => rfl
  | cons p r ih =>
    by_cases hp : p.id = i
    · have h1 : ¬ (f p).id = k := by rw [hf p, hp]; exact fun hc => hk hc.symm
      have h2 : ¬ p.id = k := by rw [hp]; exact fun hc => hk hc.symm
      simp only [updateFirst, if_pos hp, lookup, if_neg h1, if_neg h2]
    · simp only [updateFirst, if_neg hp, lookup]
      by_cases hpk : p.id = k
      · simp only [if_pos hpk]
      · simp only [if_neg hpk, ih]

lemma mem_removeFirst {ps : List Player} {j : Nat} {q : Player}
    (h : q ∈ removeFirst ps j) : q ∈ ps := by
  induction ps with
  | nil => simp [removeFirst] at h
  | cons p r ih =>
    by_cases hp : p.id = j
    · simp only [removeFirst, if_pos hp] at h
      exact List.mem_cons_of_mem p h
    · simp only [removeFirst, if_neg hp, List.mem_cons] at h
      rcases h with h | h
      · exact h ▸ List.mem_cons_self p r
      · exact List.mem_cons_of_mem p (ih h)

lemma mem_updateFirst {ps : List Player} {i : Nat} {f : Player → Player} {q : Player}
    (h : q ∈ updateFirst ps i f) : q ∈ ps ∨ ∃ p ∈ ps, q = f p := by
  induction ps with
  | nil => simp [updateFirst] at h
  | cons p r ih =>
    by_cases hp : p.id = i
    · simp only [updateFirst, if_pos hp, List.mem_cons] at h
      rcases h with h | h
      · exact Or.inr ⟨p, List.mem_cons_self p r, h⟩
      · exact Or.inl (List.mem_cons_of_mem p h)
    · simp only [updateFirst, if_neg hp, List.mem_cons] at h
      rcases h with h | h
      · exact Or.inl (h ▸ List.mem_cons_self p r)
      · rcases ih h with h' | ⟨p', hp', hq⟩
        · exact Or.inl (List.mem_cons_of_mem p h')
        · exact Or.inr ⟨p', List.mem_cons_of_mem p hp', hq⟩

lemma absorb_id (p b : Player) : (absorb p b).id = p.id := rfl

lemma absorb_mass (p b : Player) : (absorb p b).mass = p.mass + b.mass := rfl

/-! ### Mass accounting -/

lemma massSum_cons (p : Player) (r : List Player) : massSum (p :: r) = p.mass + massSum r := by
  simp [massSum]

lemma massSum_removeFirst {ps : List Player} {j : Nat} {b : Player}
    (h : lookup ps j = some b) : massSum (removeFirst ps j) + b.mass = massSum ps := by
  induction ps with
  | nil => simp [lookup] at h
  | cons p r ih =>
    by_cases hp : p.id = j
    · simp only [lookup, if_pos hp, Option.some.injEq] at h
      subst h
      simp only [removeFirst, if_pos hp, massSum_cons]
      omega
    · simp only [lookup, if_neg hp] at h
      simp only [removeFirst, if_neg hp, massSum_cons]
      have := ih h
      omega

lemma massSum_updateFirst {ps : List Player} {i : Nat} {a : Player} (f : Player → Player)
    (h : lookup ps i = some a) :
    massSum (updateFirst ps i f) + a.mass = massSum ps + (f a).mass := by
  induction ps with
  | nil => simp [lookup] at h
  | cons p r ih =>
    by_cases hp : p.id = i
    · simp only [lookup, if_pos hp, Option.some.injEq] at h
      subst h
      simp only [updateFirst, if_pos hp, massSum_cons]
      omega
    · simp only [lookup, if_neg hp] at h
      simp only [updateFirst, if_neg hp, massSum_cons]
      have := ih h
      omega

/-- The "A absorbs B" store mutation conserves total mass. -/
lemma massSum_eat {ps : List Player} {i j : Nat} {a b : Player} (hij : i ≠ j)
    (ha : lookup ps i = some a) (hb : lookup ps j = some b) :
    massSum (updateFirst (removeFirst ps j) i fun p => absorb p b) = massSum ps := by
  have h1 : lookup (removeFirst ps j) i = some a := by
    rw [lookup_removeFirst_ne ps hij]; exact ha
  have h2 := massSum_updateFirst (fun p => absorb p b) h1
  have h3 := massSum_removeFirst hb
  rw [absorb_mass] at h2
  omega

lemma pairStep_massSum (ps : List Player) (i j : Nat) :
    massSum (pairStep ps i j) = massSum ps := by
  unfold pairStep
  cases ha : lookup ps i with
  | none => rfl
  | some a =>
    cases hb : lookup ps j with
    | none => rfl
    | some b =>
      by_cases hij : i = j
      · simp [hij]
      · simp only [if_neg hij]
        split_ifs with h1 h2 h3 h4
        · exact massSum_eat hij ha hb
        · rfl
        · exact massSum_eat (Ne.symm hij) hb ha
        · rfl
        · rfl

lemma pairStepV2_massSum (ps : List Player) (i j : Nat) :
    massSum (pairStepV2 ps i j) = massSum ps := by
  unfold pairStepV2
  cases ha : lookup ps i with
  | none => rfl
  | some a =>
    cases hb : lookup ps j with
    | none => rfl
    | some b =>
      by_cases hsk : i = j ∨ a.team_id = b.team_id
      · simp [hsk]
      · have hij : i ≠ j := fun hc => hsk (Or.inl hc)
        simp only [if_neg hsk]
        split_ifs with h1 h2 h3 h4
        · exact massSum_eat hij ha hb
        · rfl
        · exact massSum_eat (Ne.symm hij) hb ha
        · rfl
        · rfl

lemma innerLoop_massSum (step : List Player → Nat → Nat → List Player)
    (hstep : ∀ ps i j, massSum (step ps i j) = massSum ps) (i : Nat) :
    ∀ (L : List Nat) (ps : List Player), massSum (innerLoop step i L ps) = massSum ps := by
  intro L
  induction L with
  | nil => intro ps; rfl
  | cons j rest ih => intro ps; rw [innerLoop, ih, hstep]

lemma outerLoop_massSum (step : List Player → Nat → Nat → List Player)
    (hstep : ∀ ps i j, massSum (step ps i j) = massSum ps) :
    ∀ (L : List Nat) (ps : List Player), massSum (outerLoop step L ps) = massSum ps := by
  intro L
  induction L with
  | nil => intro ps; rfl
  | cons i rest ih => intro ps; rw [outerLoop, ih, innerLoop_massSum step hstep]

/-! ### The eat action and liveness bookkeeping -/

lemma lookup_eat_winner (ps : List Player) {i j : Nat} (b : Player) (hij : i ≠ j) :
    lookup (updateFirst (removeFirst ps j) i fun p => absorb p b) i
      = (lookup ps i).map fun p => absorb p b := by
  rw [lookup_updateFirst_self _ _ _ fun p => absorb_id p b, lookup_removeFirst_ne ps hij]

lemma lookup_eat_victim (ps : List Player) {i j : Nat} (b : Player) (hij : i ≠ j)
    (hnd : (ps.map fun p => p.id).Nodup) :
    lookup (updateFirst (removeFirst ps j) i fun p => absorb p b) j = none := by
  rw [lookup_updateFirst_ne _ _ (fun p => absorb_id p b) (Ne.symm hij)]
  exact lookup_removeFirst_self ps j hnd

/-- When both sides are live, distinct, and A outweighs and contains B,
`pairStep` performs exactly the absorb-and-remove mutation. -/
lemma pairStep_eats {ps : List Player} {i j : Nat} {a b : Player} (hij : i ≠ j)
    (ha : lookup ps i = some a) (hb : lookup ps j = some b)
    (hm : eatCond a b) (hc : containCond a b) :
    pairStep ps i j = updateFirst (removeFirst ps j) i fun p => absorb p b := by
  unfold pairStep
  simp only [ha, hb]
  rw [if_neg hij, if_pos hm, if_pos hc]

/-- Same-team pairs short-circuit in the src/agariov2.py collision body. -/
lemma pairStepV2_same_team {ps : List Player} {i j : Nat} {a b : Player}
    (ha : lookup ps i = some a) (hb : lookup ps j = some b)
    (ht : a.team_id = b.team_id) : pairStepV2 ps i j = ps := by
  unfold pairStepV2
  simp only [ha, hb]
  rw [if_pos (Or.inr ht)]

/-! ### Growth-model invariant preservation -/

lemma propsOK_update_properties (p : Player) : propsOK (update_properties p) := ⟨rfl, rfl⟩

lemma propsOK_absorb (p b : Player) : propsOK (absorb p b) := propsOK_update_properties _

lemma propsOK_move {p : Player} (h : propsOK p) (gs : Rat) (rnd : MoveRnd) :
    propsOK (move p gs rnd) := h

lemma pairStep_propsOK {ps : List Player} (h : ∀ p ∈ ps, propsOK p) (i j : Nat) :
    ∀ q ∈ pairStep ps i j, propsOK q := by
  unfold pairStep
  cases ha : lookup ps i with
  | none => exact h
  | some a =>
    cases hb : lookup ps j with
    | none => exact h
    | some b =>
      by_cases hij : i = j
      · simp only [if_pos hij]; exact h
      · simp only [if_neg hij]
        split_ifs with h1 h2 h3 h4
        · intro q hq
          rcases mem_updateFirst hq with hq' | ⟨p', _, rfl⟩
          · exact h q (mem_removeFirst hq')
          · exact propsOK_absorb _ _
        · exact h
        · intro q hq
          rcases mem_updateFirst hq with hq' | ⟨p', _, rfl⟩
          · exact h q (mem_removeFirst hq')
          · exact propsOK_absorb _ _
        · exact h
        · exact h

lemma innerLoop_pres (P : Player → Prop) (step : List Player → Nat → Nat → List Player)
    (hstep : ∀ ps i j, (∀ p ∈ ps, P p) → ∀ q ∈ step ps i j, P q) (i : Nat) :
    ∀ (L : List Nat) (ps : List Player), (∀ p ∈ ps, P p) → ∀ q ∈ innerLoop step i L ps, P q := by
  intro L
  induction L with
  | nil => intro ps h; exact h
  | cons j rest ih => intro ps h; exact ih _ (hstep _ _ _ h)

lemma outerLoop_pres (P : Player → Prop) (step : List Player → Nat → Nat → List Player)
    (hstep : ∀ ps i j, (∀ p ∈ ps, P p) → ∀ q ∈ step ps i j, P q) :
    ∀ (L : List Nat) (ps : List Player), (∀ p ∈ ps, P p) → ∀ q ∈ outerLoop step L ps, P q := by
  intro L
  induction L with
  | nil => intro ps h; exact h
  | cons i rest ih => intro ps h; exact ih _ (innerLoop_pres P step hstep i _ _ h)

lemma agentPass_propsOK {ps : List Player} (h : ∀ p ∈ ps, propsOK p) :
    ∀ q ∈ agentPass ps, propsOK q :=
  outerLoop_pres propsOK pairStep (fun _ i j h' => pairStep_propsOK h' i j) _ _ h

lemma foodInner_propsOK :
    ∀ (snap : List Food) (p : Player) (live : List Food), propsOK p →
      propsOK (foodInner p snap live).1 := by
  intro snap
  induction snap with
  | nil => intro p live h; exact h
  | cons f rest ih =>
    intro p live h
    unfold foodInner
    split_ifs with hc
    · exact ih _ _ (propsOK_update_properties _)
    · exact ih _ _ h

lemma foodPass_propsOK :
    ∀ (ps : List Player) (food : List Food), (∀ p ∈ ps, propsOK p) →
      ∀ q ∈ (foodPass ps food).1, propsOK q := by
  intro ps
  induction ps with
  | nil => intro food _ q hq; simp [foodPass] at hq
  | cons p rest ih =>
    intro food h q hq
    simp only [foodPass, List.mem_cons] at hq
    rcases hq with hq | hq
    · exact hq ▸ foodInner_propsOK _ _ _ (h p (List.mem_cons_self p rest))
    · exact ih _ (fun r hr => h r (List.mem_cons_of_mem p hr)) q hq

/-! ### Win-condition bookkeeping -/

lemma foldl_active (q : Nat → Prop) [DecidablePred q] :
    ∀ (L : List Nat) (c : Nat) (l : Int),
      L.foldl (fun acc t => if q t then (acc.1 + 1, (t : Int)) else acc) (c, l)
        = (c + (L.filter fun t => decide (q t)).length,
           match (L.filter fun t => decide (q t)).getLast? with
           | some t => (t : Int)
           | none => l) := by
  intro L
  induction L with
  | nil => intro c l; simp
  | cons t rest ih =>
    intro c l
    by_cases hq : q t
    · rw [List.foldl_cons, if_pos hq, ih]
      have hf : ((t :: rest).filter fun u => decide (q u))
          = t :: (rest.filter fun u => decide (q u)) := by
        simp [List.filter_cons, hq]
      rw [hf]
      simp only [Prod.mk.injEq, List.length_cons]
      refine ⟨by omega, ?_⟩
      cases hfr : rest.filter fun u => decide (q u) with
      | nil => simp
      | cons u us =>
        rw [List.getLast?_cons_cons]
        cases hlast : (u :: us).getLast? with
        | none => exact absurd (List.getLast?_eq_none_iff.1 hlast) (by simp)
        | some v => rfl
    · rw [List.foldl_cons, if_neg hq, ih]
      have hf : ((t :: rest).filter fun u => decide (q u))
          = rest.filter fun u => decide (q u) := by
        simp [List.filter_cons, hq]
      rw [hf]

lemma activeFold_spec (ps : List Player) :
    activeFold ps = ((activeTeams ps).length,
      match (activeTeams ps).getLast? with | some t => (t : Int) | none => (-1 : Int)) := by
  unfold activeFold activeTeams
  rw [foldl_active (fun t => 0 < teamCount ps t)]
  simp

lemma winCheck_cases (ps : List Player) :
    winCheck ps = match activeTeams ps with
      | [] => some { winner_id := none, mass := 0 }
      | [t] => some { winner_id := some t, mass := teamMass ps t }
      | _ :: _ :: _ => none := by
  simp only [winCheck, activeFold_spec]
  cases hA : activeTeams ps with
  | nil => rfl
  | cons t rest =>
    cases rest with
    | nil => simp
    | cons u us =>
      have h1 : (t :: u :: us).length ≠ 1 := by simp
      have h2 : (t :: u :: us).length ≠ 0 := by simp
      rw [if_neg h1, if_neg h2]

/-! ### Miscellaneous helper lemmas -/

lemma clamp_bounds (v w : Rat) (hw : 0 ≤ w) :
    0 ≤ max 0 (min v w) ∧ max 0 (min v w) ≤ w :=
  ⟨le_max_left 0 _, max_le hw (min_le_right v w)⟩

lemma le_foldl_of_le_step {α : Type} (step : Nat → α → Nat)
    (hstep : ∀ m t, m ≤ step m t) :
    ∀ (L : List α) (a : Nat), a ≤ L.foldl step a := by
  intro L
  induction L with
  | nil => intro a; exact Nat.le_refl a
  | cons t rest ih => intro a; exact Nat.le_trans (hstep a t) (ih (step a t))

lemma pairStep_dead_left {ps : List Player} {k : Nat} (h : lookup ps k = none) (j : Nat) :
    pairStep ps k j = ps := by
  unfold pairStep
  rw [h]

lemma pairStep_dead_right {ps : List Player} {k : Nat} (h : lookup ps k = none) (i : Nat) :
    pairStep ps i k = ps := by
  unfold pairStep
  rw [h]
  cases lookup ps i <;> rfl

lemma pairStepV2_dead_left {ps : List Player} {k : Nat} (h : lookup ps k = none) (j : Nat) :
    pairStepV2 ps k j = ps := by
  unfold pairStepV2
  rw [h]

lemma pairStepV2_dead_right {ps : List Player} {k : Nat} (h : lookup ps k = none) (i : Nat) :
    pairStepV2 ps i k = ps := by
  unfold pairStepV2
  rw [h]
  cases lookup ps i <;> rfl

/-! ### Claim theorems -/

/-- C1: for distinct live agents A (id `i`) and B (id `j`), if A's mass
exceeds B's mass times `EAT_THRESHOLD` and the center distance plus B's
radius is under A's radius, the consumption event leaves A with mass
`A.mass_before + B.mass_before` and freshly recomputed radius and speed, and
removes B from the store. -/
theorem consumption_event_spec (ps : List Player) (i j : Nat) (a b : Player)
    (hnd : (ps.map fun p => p.id).Nodup) (hij : i ≠ j)
    (ha : lookup ps i = some a) (hb : lookup ps j = some b)
    (hm : eatCond a b) (hc : containCond a b) :
    lookup (pairStep ps i j) i
        = some { a with mass := a.mass + b.mass,
                        radius := radiusOf (a.mass + b.mass),
                        speed := speedOf (radiusOf (a.mass + b.mass)) }
      ∧ lookup (pairStep ps i j) j = none := by
  rw [pairStep_eats hij ha hb hm hc]
  constructor
  · rw [lookup_eat_winner ps b hij, ha]
    rfl
  · exact lookup_eat_victim ps b hij hnd

/-- C1 witness: `pDemoA` (mass 100, radius 40) consumes `pDemoB` (mass 10,
radius 12) at center distance 10. -/
theorem consumption_event_witness :
    (([pDemoA, pDemoB].map fun p => p.id).Nodup ∧ (0 : Nat) ≠ 1
      ∧ lookup [pDemoA, pDemoB] 0 = some pDemoA
      ∧ lookup [pDemoA, pDemoB] 1 = some pDemoB
      ∧ eatCond pDemoA pDemoB ∧ containCond pDemoA pDemoB)
    ∧ (lookup (pairStep [pDemoA, pDemoB] 0 1) 0
        = some { pDemoA with mass := pDemoA.mass + pDemoB.mass,
                             radius := radiusOf (pDemoA.mass + pDemoB.mass),
                             speed := speedOf (radiusOf (pDemoA.mass + pDemoB.mass)) }
      ∧ lookup (pairStep [pDemoA, pDemoB] 0 1) 1 = none) := by
  have hm : eatCond pDemoA pDemoB := by
    norm_num [eatCond, pDemoA, pDemoB, EAT_THRESHOLD]
  have hc : containCond pDemoA pDemoB := by
    norm_num [containCond, sqrtLt, dist2, pDemoA, pDemoB]
  exact ⟨⟨by decide, by decide, rfl, rfl, hm, hc⟩,
    consumption_event_spec [pDemoA, pDemoB] 0 1 pDemoA pDemoB
      (by decide) (by decide) rfl rfl hm hc⟩

/-- C2: a freshly created agent satisfies the growth-model invariant
(`radius = ⌊4·√mass⌋` and the speed formula for that radius), and one full
tick of the game-state logic preserves it for every live agent, since every
mass change goes through `update_properties` before the tick ends. -/
theorem growth_invariant_tick (i : Nat) (x y : Rat) (team m : Nat)
    (s : Sim) (o : Oracle) (h : ∀ p ∈ s.players, propsOK p) :
    propsOK (mkPlayer i x y team m) ∧ ∀ q ∈ (simTick s o).players, propsOK q := by
  refine ⟨propsOK_update_properties _, ?_⟩
  obtain ⟨ps, food, st, t, gs⟩ := s
  cases st with
  | playing =>
    have hmv : ∀ q ∈ ps.map fun p => move p gs (o.mv p.id), propsOK q := by
      intro q hq
      rcases List.mem_map.1 hq with ⟨p, hp, rfl⟩
      exact propsOK_move (h p hp) _ _
    exact agentPass_propsOK (foodPass_propsOK _ _ hmv)
  | paused => exact h
  | victory w => exact h

/-- C2 witness: the invariant holds for the one-agent demo state and is
preserved by a tick from it. -/
theorem growth_invariant_tick_witness :
    (∀ p ∈ simDemo.players, propsOK p)
    ∧ (propsOK (mkPlayer 0 100 100 0 20)
        ∧ ∀ q ∈ (simTick simDemo oracleDemo).players, propsOK q) := by
  have h : ∀ p ∈ simDemo.players, propsOK p := by
    intro p hp
    rw [simDemo, List.mem_singleton] at hp
    rw [hp]
    exact propsOK_update_properties _
  exact ⟨h, growth_invariant_tick 0 100 100 0 20 simDemo oracleDemo h⟩

/-- C3: the win check evaluated after aggregation yields: exactly one team
with live agents — victory for that team with its aggregate mass; no team
with live agents — victory for the `'No one'` sentinel with mass 0; two or
more — no transition.  The tick then installs exactly this outcome as the
new game state. -/
theorem victory_detection (ps : List Player) :
    (winCheck ps = match activeTeams ps with
      | [] => some { winner_id := none, mass := 0 }
      | [t] => some { winner_id := some t, mass := teamMass ps t }
      | _ :: _ :: _ => none)
    ∧ ∀ (food : List Food) (t gs : Rat) (o : Oracle),
        (simTick { players := ps, food_pellets := food, game_state := GState.playing,
                   total_play_time := t, game_speed := gs } o).game_state
          = match winCheck ((simTick { players := ps, food_pellets := food,
                                       game_state := GState.playing,
                                       total_play_time := t,
                                       game_speed := gs } o).players) with
            | some w => GState.victory w
            | none => GState.playing := by
  refine ⟨winCheck_cases ps, ?_⟩
  intro food t gs o
  rfl

/-- C4 counterexample: in src/agariov2.py's consumption pass, the same-team
pair `pDemoA`, `pDemoB` satisfies the mass-threshold and containment
conditions, yet the pass leaves the store unchanged — `pDemoB` is not
consumed, contradicting "no exemption by team" for that variant. -/
theorem same_team_pass_counterexample :
    eatCond pDemoA pDemoB ∧ containCond pDemoA pDemoB
      ∧ pDemoA.team_id = pDemoB.team_id
      ∧ agentPassV2 [pDemoA, pDemoB] = [pDemoA, pDemoB]
      ∧ lookup (agentPassV2 [pDemoA, pDemoB]) 1 = some pDemoB := by
  refine ⟨?_, ?_, rfl, rfl, rfl⟩
  · norm_num [eatCond, pDemoA, pDemoB, EAT_THRESHOLD]
  · norm_num [containCond, sqrtLt, dist2, pDemoA, pDemoB]

/-- C4 (amended): src/agario.py's pass applies the consumption rule with no
exemption by team — a same-team victim meeting the conditions is removed —
while src/agariov2.py's pass skips every same-team pair unchanged. -/
theorem team_exemption_amended (ps : List Player) (i j : Nat) (a b : Player)
    (hnd : (ps.map fun p => p.id).Nodup) (hij : i ≠ j)
    (ha : lookup ps i = some a) (hb : lookup ps j = some b)
    (hteam : a.team_id = b.team_id) (hm : eatCond a b) (hc : containCond a b) :
    lookup (pairStep ps i j) j = none ∧ pairStepV2 ps i j = ps := by
  constructor
  · rw [pairStep_eats hij ha hb hm hc]
    exact lookup_eat_victim ps b hij hnd
  · exact pairStepV2_same_team ha hb hteam

/-- C4 witness: the amended statement instantiated at the same-team demo
pair. -/
theorem team_exemption_amended_witness :
    (([pDemoA, pDemoB].map fun p => p.id).Nodup ∧ (0 : Nat) ≠ 1
      ∧ lookup [pDemoA, pDemoB] 0 = some pDemoA
      ∧ lookup [pDemoA, pDemoB] 1 = some pDemoB
      ∧ pDemoA.team_id = pDemoB.team_id
      ∧ eatCond pDemoA pDemoB ∧ containCond pDemoA pDemoB)
    ∧ (lookup (pairStep [pDemoA, pDemoB] 0 1) 1 = none
      ∧ pairStepV2 [pDemoA, pDemoB] 0 1 = [pDemoA, pDemoB]) := by
  have hm : eatCond pDemoA pDemoB := by
    norm_num [eatCond, pDemoA, pDemoB, EAT_THRESHOLD]
  have hc : containCond pDemoA pDemoB := by
    norm_num [containCond, sqrtLt, dist2, pDemoA, pDemoB]
  exact ⟨⟨by decide, by decide, rfl, rfl, rfl, hm, hc⟩,
    team_exemption_amended [pDemoA, pDemoB] 0 1 pDemoA pDemoB
      (by decide) (by decide) rfl rfl rfl hm hc⟩

/-- C5: the collision body consults current liveness before acting: if agent
`k` is no longer in the store, every pair involving `k` (in either variant
and on either side) is a total no-op, and an entire inner sweep led by the
destroyed agent changes nothing — so an agent eaten earlier in the pass can
never take part in a later pair of the same tick. -/
theorem dead_agent_noop (ps : List Player) (k : Nat) (h : lookup ps k = none) :
    (∀ i, pairStep ps i k = ps ∧ pairStep ps k i = ps
        ∧ pairStepV2 ps i k = ps ∧ pairStepV2 ps k i = ps)
    ∧ ∀ L : List Nat, innerLoop pairStep k L ps = ps := by
  constructor
  · intro i
    exact ⟨pairStep_dead_right h i, pairStep_dead_left h i,
      pairStepV2_dead_right h i, pairStepV2_dead_left h i⟩
  · intro L
    induction L with
    | nil => rfl
    | cons j rest ih => rw [innerLoop, pairStep_dead_left h j, ih]

/-- C5 witness: id 5 is not in the demo store; all pair steps involving it
are no-ops. -/
theorem dead_agent_noop_witness :
    lookup [pDemoA, pDemoB] 5 = none
    ∧ ((∀ i, pairStep [pDemoA, pDemoB] i 5 = [pDemoA, pDemoB]
          ∧ pairStep [pDemoA, pDemoB] 5 i = [pDemoA, pDemoB]
          ∧ pairStepV2 [pDemoA, pDemoB] i 5 = [pDemoA, pDemoB]
          ∧ pairStepV2 [pDemoA, pDemoB] 5 i = [pDemoA, pDemoB])
      ∧ ∀ L : List Nat, innerLoop pairStep 5 L [pDemoA, pDemoB] = [pDemoA, pDemoB]) :=
  ⟨rfl, dead_agent_noop [pDemoA, pDemoB] 5 rfl⟩

/-- C7: while the state is `"paused"`, a tick changes nothing: players
(position, mass, radius, speed, heading, wander timer), food pellets, and
the play-time accumulator are all exactly as before, for every oracle (in
particular for arbitrary wall-clock `dt_ms`). -/
theorem paused_tick_frozen (ps : List Player) (food : List Food) (t gs : Rat) (o : Oracle) :
    simTick { players := ps, food_pellets := food, game_state := GState.paused,
              total_play_time := t, game_speed := gs } o
      = { players := ps, food_pellets := food, game_state := GState.paused,
          total_play_time := t, game_speed := gs } := rfl

/-- C8: a motion step keeps an in-bounds agent inside
`[0, SCREEN_WIDTH] × [0, SCREEN_HEIGHT]` for every speed, multiplier and
random draw; the new position is the clamp of the unconstrained displacement
(not a reflection), and hitting a wall never changes the heading — the
heading changes only when the wander timer expires. -/
theorem move_clamps_to_arena (p : Player) (gs : Rat) (rnd : MoveRnd)
    (_hx : 0 ≤ p.x ∧ p.x ≤ SCREEN_WIDTH) (_hy : 0 ≤ p.y ∧ p.y ≤ SCREEN_HEIGHT) :
    (0 ≤ (move p gs rnd).x ∧ (move p gs rnd).x ≤ SCREEN_WIDTH)
    ∧ (0 ≤ (move p gs rnd).y ∧ (move p gs rnd).y ≤ SCREEN_HEIGHT)
    ∧ ((move p gs rnd).x
        = max 0 (min (p.x + (move p gs rnd).dx * p.speed * gs) SCREEN_WIDTH)
      ∧ (move p gs rnd).y
        = max 0 (min (p.y + (move p gs rnd).dy * p.speed * gs) SCREEN_HEIGHT))
    ∧ (0 < p.move_timer - 1 * gs →
        (move p gs rnd).dx = p.dx ∧ (move p gs rnd).dy = p.dy) := by
  have hW : (0 : Rat) ≤ SCREEN_WIDTH := by norm_num [SCREEN_WIDTH]
  have hH : (0 : Rat) ≤ SCREEN_HEIGHT := by norm_num [SCREEN_HEIGHT]
  refine ⟨clamp_bounds _ _ hW, clamp_bounds _ _ hH, ⟨rfl, rfl⟩, ?_⟩
  intro ht
  have hne : ¬ (p.move_timer - 1 * gs ≤ 0) := not_le.2 ht
  constructor <;> (dsimp only [move]; rw [if_neg hne])

/-- C8 witness: the in-bounds demo agent stays in bounds after a step. -/
theorem move_clamps_to_arena_witness :
    ((0 ≤ pDemoA.x ∧ pDemoA.x ≤ SCREEN_WIDTH) ∧ (0 ≤ pDemoA.y ∧ pDemoA.y ≤ SCREEN_HEIGHT))
    ∧ ((0 ≤ (move pDemoA 1 (oracleDemo.mv 0)).x
          ∧ (move pDemoA 1 (oracleDemo.mv 0)).x ≤ SCREEN_WIDTH)
      ∧ (0 ≤ (move pDemoA 1 (oracleDemo.mv 0)).y
          ∧ (move pDemoA 1 (oracleDemo.mv 0)).y ≤ SCREEN_HEIGHT)
      ∧ ((move pDemoA 1 (oracleDemo.mv 0)).x
          = max 0 (min (pDemoA.x + (move pDemoA 1 (oracleDemo.mv 0)).dx * pDemoA.speed * 1)
              SCREEN_WIDTH)
        ∧ (move pDemoA 1 (oracleDemo.mv 0)).y
          = max 0 (min (pDemoA.y + (move pDemoA 1 (oracleDemo.mv 0)).dy * pDemoA.speed * 1)
              SCREEN_HEIGHT))
      ∧ (0 < pDemoA.move_timer - 1 * 1 →
          (move pDemoA 1 (oracleDemo.mv 0)).dx = pDemoA.dx
          ∧ (move pDemoA 1 (oracleDemo.mv 0)).dy = pDemoA.dy)) := by
  have hx : 0 ≤ pDemoA.x ∧ pDemoA.x ≤ SCREEN_WIDTH := by
    norm_num [pDemoA, SCREEN_WIDTH]
  have hy : 0 ≤ pDemoA.y ∧ pDemoA.y ≤ SCREEN_HEIGHT := by
    norm_num [pDemoA, SCREEN_HEIGHT]
  exact ⟨⟨hx, hy⟩, move_clamps_to_arena pDemoA 1 (oracleDemo.mv 0) hx hy⟩

/-- C9: the maximum team mass computed by either variant's aggregator is at
least 1 (the fold starts from 1), so the proportional-bar division is never
by zero, even when every team is empty. -/
theorem max_mass_ge_one (ps : List Player) : 1 ≤ max_mass ps ∧ 1 ≤ max_massV2 ps := by
  constructor
  · exact le_foldl_of_le_step _ (fun m t => Nat.le_max_left m _) _ 1
  · refine le_foldl_of_le_step _ (fun m t => ?_) _ 1
    by_cases h : teamMass ps t > m
    · rw [if_pos h]; exact Nat.le_of_lt h
    · rw [if_neg h]

/-- C10: a full agent-consumption pass (either variant) conserves the total
mass of live agents: every consumption moves the victim's whole mass onto
the winner and removes the victim, and nothing else in the pass touches
mass. -/
theorem agent_pass_mass_conserved (ps : List Player) :
    massSum (agentPass ps) = massSum ps ∧ massSum (agentPassV2 ps) = massSum ps :=
  ⟨outerLoop_massSum pairStep pairStep_massSum _ _,
   outerLoop_massSum pairStepV2 pairStepV2_massSum _ _⟩

/-- C6: the speed-input parser is a total function: an unparsable input or a
negative value resets to `(1.0, "1")`; a parsed non-negative decimal
`m / 10^k` is returned with its canonical string (an integral value renders
with no fractional part); and the five specified example inputs behave
exactly as stated. -/
theorem parse_speed_input_spec :
    (∀ s : String, parse_speed_input s
        = match parseDec s with
          | none => (1, "1")
          | some mk =>
            if mk.1 < 0 then (1, "1")
            else if (10 ^ mk.2 : Int) ∣ mk.1 then
              (decValue mk.1 mk.2, toString (mk.1 / 10 ^ mk.2))
            else (decValue mk.1 mk.2, fmtDec mk.1 mk.2))
    ∧ parse_speed_input "" = (1, "1")
    ∧ parse_speed_input "2.0" = (2, "2")
    ∧ parse_speed_input "1.5" = (1.5, "1.5")
    ∧ parse_speed_input "-3" = (1, "1")
    ∧ parse_speed_input "abc" = (1, "1") := by
  refine ⟨?_, rfl, ?_, ?_, rfl, rfl⟩
  · intro s
    cases he : s.isEmpty with
    | true =>
      have he' : s = "" := (String.isEmpty_iff s).1 he
      subst he'
      rfl
    | false => simp only [parse_speed_input, he, Bool.false_eq_true, if_false]
  · have h : parse_speed_input "2.0" = (decValue 20 1, "2") := rfl
    rw [h]
    norm_num [decValue]
  · have h : parse_speed_input "1.5" = (decValue 15 1, "1.5") := rfl
    rw [h]
    norm_num [decValue]

end Agario
